import Mathlib

/-!
Verification of the SeracTECH-FREE display layer and of the spec-described
ingestion engine (IncrementalStore / Orchestrator), as a shallow embedding
in Lean 4.

Numbers that appear in the TypeScript source as JS numbers are modelled as
rationals (`ℚ`); nullable coordinates are `Option ℚ` and JS truthiness of a
number (`!x` is true for `null`, `undefined` and `0`) is the `truthy`
predicate below.  HTTP interaction is modelled by passing an explicit
"world" function from URL to response.  Strings are Lean `String`s; where a
proof needs character-level structure the embedding works on `List Char`
via `String.toList`/`List.asString`.
-/

namespace SeracTech

/-- The canonical record, from the `PlanningApplication` interface that is
repeated in every frontend file.  `lat`/`lng` are `Option ℚ` because the
data model of the spec makes them nullable (absent until geocoded). -/
structure PlanningApplication where
  id : String
  desc : String
  addr : String
  postcode : String
  lat : Option ℚ
  lng : Option ℚ
  date_received : String
  status : String
  link : String
deriving DecidableEq

/-- JS truthiness of a nullable number: `null`, `undefined` and `0` are
falsy, every other number is truthy. -/
def truthy : Option ℚ → Bool
  | none => false
  | some q => q != 0

/-- An HTTP response as seen through `fetch`: a status code and a parsed
body (the body is only consulted on `ok` responses). -/
structure HttpResponse (β : Type) where
  status : Nat
  body : β
deriving DecidableEq

/-- `Response.ok` of the fetch API: status in the range 200–299. -/
def HttpResponse.ok {β : Type} (r : HttpResponse β) : Bool :=
  200 ≤ r.status && r.status ≤ 299

/-! ## usePlanningData / fetchPlanningData (src/src/hooks, second document)

`fetchPlanningData` computes `area = sector.substring(0, 2).replace(/\d/, '')`
and fetches `${baseUrl}data/${area}/${sector}.json`; a 404 is turned into an
empty list, any other non-ok response throws. -/

/-- `s.replace(/\d/, '')` on a list of characters: the regex has no `g`
flag, so exactly the first digit (if any) is removed. -/
def removeFirstDigit : List Char → List Char
  | [] => []
  | c :: cs => if c.isDigit then cs else c :: removeFirstDigit cs

/-- `sector.substring(0, 2).replace(/\d/, '')` from `fetchPlanningData`. -/
def jsArea (sector : String) : String :=
  (removeFirstDigit (sector.toList.take 2)).asString

/-- `s.toUpperCase()`, character by character. -/
def jsToUpper (s : String) : String :=
  (s.toList.map Char.toUpper).asString

/-- `s.toLowerCase()`, character by character. -/
def jsToLower (s : String) : String :=
  (s.toList.map Char.toLower).asString

/-- `postcode.split(' ')[0].toUpperCase()` from `usePlanningData`:
`split(' ')[0]` is the longest prefix free of the space character
(splitting happens at `' '` only, not at other whitespace). -/
def jsSector (postcode : String) : String :=
  ((postcode.toList.takeWhile (fun c => c != ' ')).map Char.toUpper).asString

/-- The URL of one shard file, `${baseUrl}data/${area}/${sector}.json`. -/
def shardPath (baseUrl area sector : String) : String :=
  baseUrl ++ "data/" ++ area ++ "/" ++ sector ++ ".json"

/-- `fetchPlanningData` from the hook document of
`src/src/hooks/useRadiusFilter.ts` (and, with `baseUrl = "/"`, the
identical function in `src/unnamed/part_000`): empty sector short-circuits
to `[]`; a 404 response is "no data for this sector yet"; any other non-ok
response throws `Error('Network response was not ok')`. -/
def fetchPlanningData (baseUrl : String)
    (world : String → HttpResponse (List PlanningApplication))
    (sector : String) : Except String (List PlanningApplication) :=
  if sector = "" then .ok []
  else
    let response := world (shardPath baseUrl (jsArea sector) sector)
    if !response.ok then
      if response.status = 404 then .ok []
      else .error "Network response was not ok"
    else .ok response.body

/-- Which query `usePlanningData` runs: the show-all fetch, a single-sector
shard fetch at a given URL, or no fetch at all (`enabled: !!sector`). -/
inductive PlanningQuery where
  | showAll
  | sectorFetch (url : String)
  | disabled
deriving DecidableEq

/-- `usePlanningData` from the hook document of
`src/src/hooks/useRadiusFilter.ts`: `'ALL'` (case-insensitively) selects
the show-all fetch, otherwise the sector is `postcode.split(' ')[0]`
uppercased and the shard URL is the one `fetchPlanningData` builds. -/
def usePlanningData (baseUrl postcode : String) : PlanningQuery :=
  let isShowAll := jsToUpper postcode == "ALL"
  let sector := if isShowAll then "ALL" else jsSector postcode
  if sector = "" then .disabled
  else if isShowAll then .showAll
  else .sectorFetch (shardPath baseUrl (jsArea sector) sector)

/-! Spec-side derivations for claim C2: the sector as "the first
whitespace-delimited token of the postcode, uppercased", and the area as
"the sector's first two characters with any digit removed". -/

/-- The claim's sector: first whitespace-delimited token, uppercased. -/
def specSector (postcode : String) : String :=
  ((postcode.toList.takeWhile (fun c => !c.isWhitespace)).map Char.toUpper).asString

/-- The claim's area: the sector's first two characters with every digit
removed. -/
def specArea (sector : String) : String :=
  ((sector.toList.take 2).filter (fun c => !c.isDigit)).asString

/-- The shard file named by claim C2. -/
def specShardUrl (baseUrl sector : String) : String :=
  shardPath baseUrl (specArea sector) sector

/-- On a string whose only whitespace characters are spaces, taking the
prefix free of spaces and taking the prefix free of whitespace coincide. -/
theorem takeWhile_ne_space_eq_not_ws (l : List Char)
    (h : ∀ c ∈ l, c.isWhitespace → c = ' ') :
    l.takeWhile (fun c => c != ' ') = l.takeWhile (fun c => !c.isWhitespace) := by
  induction l with
  | nil => rfl
  | cons c t ih =>
    by_cases hc : c = ' '
    · subst hc
      simp [List.takeWhile_cons]
    · have hws : c.isWhitespace = false := by
        cases hcw : c.isWhitespace with
        | false => rfl
        | true => exact absurd (h c (List.mem_cons_self c t) hcw) hc
      have hne : (c != ' ') = true := by simp [hc]
      simp [List.takeWhile_cons, hne, hws,
        ih (fun d hd => h d (List.mem_cons_of_mem _ hd))]

/-- When a list of characters holds at most one digit, removing the first
digit and filtering out every digit coincide. -/
theorem removeFirstDigit_eq_filter (l : List Char)
    (h : l.countP (fun c => c.isDigit) ≤ 1) :
    removeFirstDigit l = l.filter (fun c => !c.isDigit) := by
  induction l with
  | nil => rfl
  | cons c t ih =>
    rw [List.countP_cons] at h
    by_cases hc : c.isDigit
    · have h0 : t.countP (fun c => c.isDigit) = 0 := by
        simp only [hc, if_pos] at h; omega
      have ht : t.filter (fun c => !c.isDigit) = t := by
        rw [List.filter_eq_self]
        intro a ha
        have := List.countP_eq_zero.mp h0 a ha
        simpa using this
      simp [removeFirstDigit, hc, List.filter_cons, ht]
    · have h' : t.countP (fun c => c.isDigit) ≤ 1 := by
        simp only [hc, if_neg] at h; omega
      simp [removeFirstDigit, hc, List.filter_cons, ih h']

/-- Claim C2 (counterexample): for the user-entered postcode `"12\t3X"`
(allowed by the search form, which only requires a trimmed length of at
least 2), the shard file fetched by the display layer is not
`data/{area}/{sector}.json` for the claim's sector (first
whitespace-delimited token, uppercased) and area (first two characters
with any digit removed): the code splits at spaces only and removes only
the first digit, so it fetches `data/2/12\t3X.json` while the claim names
`data//12.json`. -/
theorem usePlanningData_url_counterexample :
    usePlanningData "/" "12\t3X" ≠
      PlanningQuery.sectorFetch (specShardUrl "/" (specSector "12\t3X")) := by
  decide

/-- Claim C2 (amended): for every user-entered postcode whose whitespace
characters are all plain spaces and whose sector starts with at most one
digit in its first two characters (true of every well-formed UK postcode),
and which is not the show-all keyword `ALL` and has a nonempty sector, the
display layer fetches exactly `data/{area}/{sector}.json` with the sector
the postcode's first whitespace-delimited token uppercased and the area
the sector's first two characters with the digit, if any, removed. -/
theorem usePlanningData_url_amended (baseUrl postcode : String)
    (hall : jsToUpper postcode ≠ "ALL")
    (hws : ∀ c ∈ postcode.toList, c.isWhitespace → c = ' ')
    (hdig : ((specSector postcode).toList.take 2).countP (fun c => c.isDigit) ≤ 1)
    (hsec : jsSector postcode ≠ "") :
    usePlanningData baseUrl postcode =
      PlanningQuery.sectorFetch (specShardUrl baseUrl (specSector postcode)) := by
  have hsecEq : jsSector postcode = specSector postcode := by
    unfold jsSector specSector
    rw [takeWhile_ne_space_eq_not_ws _ hws]
  have hareaEq : jsArea (specSector postcode) = specArea (specSector postcode) := by
    unfold jsArea specArea
    rw [removeFirstDigit_eq_filter _ hdig]
  have h1 : (jsToUpper postcode == "ALL") = false := beq_eq_false_iff_ne.mpr hall
  unfold usePlanningData
  simp only [h1, Bool.false_eq_true, if_false]
  rw [if_neg hsec, hsecEq]
  unfold specShardUrl
  rw [hareaEq]

/-- Claim C2 (witness): the amended theorem applied to the postcode
`PO1 2AB` with `baseUrl = "/"`. -/
theorem usePlanningData_url_amended_witness :
    usePlanningData "/" "PO1 2AB" =
      PlanningQuery.sectorFetch (specShardUrl "/" (specSector "PO1 2AB")) :=
  usePlanningData_url_amended "/" "PO1 2AB" (by decide) (by decide) (by decide)
    (by decide)

/-- Claim C1: a 404 on the shard file yields the empty result list, and
every other non-ok HTTP response yields an error. -/
theorem fetchPlanningData_notFound_empty (baseUrl sector : String)
    (world : String → HttpResponse (List PlanningApplication))
    (hs : sector ≠ "") :
    ((world (shardPath baseUrl (jsArea sector) sector)).status = 404 →
      fetchPlanningData baseUrl world sector = .ok []) ∧
    ((world (shardPath baseUrl (jsArea sector) sector)).ok = false →
      (world (shardPath baseUrl (jsArea sector) sector)).status ≠ 404 →
      fetchPlanningData baseUrl world sector =
        .error "Network response was not ok") := by
  constructor
  · intro h404
    have hok : (world (shardPath baseUrl (jsArea sector) sector)).ok = false := by
      simp [HttpResponse.ok, h404]
    unfold fetchPlanningData
    rw [if_neg hs]
    simp [hok, h404]
  · intro hok h404
    unfold fetchPlanningData
    rw [if_neg hs]
    simp [hok, h404]

/-- Claim C1 (witness): a world answering 404 yields `ok []`, a world
answering 500 yields the error, both at sector `PO1`. -/
theorem fetchPlanningData_notFound_empty_witness :
    fetchPlanningData "/" (fun _ => ⟨404, []⟩) "PO1" = .ok [] ∧
    fetchPlanningData "/" (fun _ => ⟨500, []⟩) "PO1" =
      .error "Network response was not ok" :=
  ⟨(fetchPlanningData_notFound_empty "/" "PO1" (fun _ => ⟨404, []⟩)
      (by decide)).1 rfl,
   (fetchPlanningData_notFound_empty "/" "PO1" (fun _ => ⟨500, []⟩)
      (by decide)).2 (by decide) (by decide)⟩

/-! ## useRadiusFilter (src/src/hooks/useRadiusFilter.ts) and MapView

The haversine implementation lives in `../utils/distance` (not needed for
the claims about control flow), so it is passed in as a function `hav`. -/

/-- A planning application together with the computed `distance` field.
`Infinity` is `⊤ : WithTop ℚ`. -/
structure FilteredApplication extends PlanningApplication where
  distance : WithTop ℚ
deriving DecidableEq

/-- Ascending order on the `distance` field, the comparator
`(a, b) => a.distance - b.distance` of the final `.sort`. -/
def distLe (a b : FilteredApplication) : Prop :=
  a.distance ≤ b.distance

instance : DecidableRel distLe := fun a b =>
  inferInstanceAs (Decidable (a.distance ≤ b.distance))

/-- The body of the `.map` in `useRadiusFilter`: a record with a falsy
(absent or zero) coordinate gets `distance: Infinity`, otherwise the
haversine distance from the center. -/
def radiusMapStep (hav : ℚ → ℚ → ℚ → ℚ → ℚ) (centerLat centerLng : Option ℚ)
    (app : PlanningApplication) : FilteredApplication :=
  if !truthy app.lat || !truthy app.lng then ⟨app, ⊤⟩
  else
    ⟨app, (hav (centerLat.getD 0) (centerLng.getD 0)
      (app.lat.getD 0) (app.lng.getD 0) : ℚ)⟩

/-- `useRadiusFilter` from `src/src/hooks/useRadiusFilter.ts`: with a falsy
center (or no applications) every application is returned with distance 0;
otherwise map to distances, keep `distance <= radiusKm`, sort ascending. -/
def useRadiusFilter (hav : ℚ → ℚ → ℚ → ℚ → ℚ)
    (applications : List PlanningApplication)
    (centerLat centerLng : Option ℚ) (radiusKm : ℚ) : List FilteredApplication :=
  if !truthy centerLat || !truthy centerLng || applications.isEmpty then
    applications.map (fun app => ⟨app, 0⟩)
  else
    List.insertionSort distLe
      ((applications.map (radiusMapStep hav centerLat centerLng)).filter
        (fun fa => fa.distance ≤ (radiusKm : WithTop ℚ)))

/-- The marker filter of `MapView`
(`applications.filter(app => app.lat && app.lng)`). -/
def mapMarkers (applications : List PlanningApplication) :
    List PlanningApplication :=
  applications.filter (fun app => truthy app.lat && truthy app.lng)

/-- A record whose coordinates are absent (not yet geocoded). -/
def noCoordApp : PlanningApplication :=
  { id := "24/0001/FUL", desc := "Single storey rear extension",
    addr := "1 High St", postcode := "PO1 2AB", lat := none, lng := none,
    date_received := "2024-01-01", status := "Pending", link := "l1" }

/-- A stand-in haversine function for concrete evaluations. -/
def hav0 : ℚ → ℚ → ℚ → ℚ → ℚ := fun _ _ _ _ => 0

/-- Claim C3 (counterexample): with a truthy searched center point
`(1, 1)` and radius 5 km, the record without coordinates is assigned
distance `Infinity` and filtered out of the displayed results — the result
list is empty, so the record is not "listed". -/
theorem useRadiusFilter_unmapped_counterexample :
    useRadiusFilter hav0 [noCoordApp] (some 1) (some 1) 5 = [] := by
  decide

/-- The underlying record of a mapped element is the element mapped over. -/
theorem radiusMapStep_toApp (hav : ℚ → ℚ → ℚ → ℚ → ℚ)
    (centerLat centerLng : Option ℚ) (app : PlanningApplication) :
    (radiusMapStep hav centerLat centerLng app).toPlanningApplication = app := by
  unfold radiusMapStep
  split <;> rfl

/-- A record with a falsy coordinate is mapped to distance `Infinity`. -/
theorem radiusMapStep_missing (hav : ℚ → ℚ → ℚ → ℚ → ℚ)
    (centerLat centerLng : Option ℚ) (app : PlanningApplication)
    (happ : truthy app.lat = false ∨ truthy app.lng = false) :
    radiusMapStep hav centerLat centerLng app = ⟨app, ⊤⟩ := by
  unfold radiusMapStep
  rcases happ with h | h <;> simp [h]

/-- Claim C3 (amended): a record without coordinates is excluded by the
radius filter whenever a truthy center point is available (for every
radius); it is included, with distance 0, only when no center point is
available; and the map omits its marker. -/
theorem useRadiusFilter_unmapped_amended (hav : ℚ → ℚ → ℚ → ℚ → ℚ)
    (applications : List PlanningApplication)
    (centerLat centerLng : Option ℚ) (radiusKm : ℚ)
    (app : PlanningApplication)
    (happ : truthy app.lat = false ∨ truthy app.lng = false) :
    (truthy centerLat = true → truthy centerLng = true →
      ∀ fa ∈ useRadiusFilter hav applications centerLat centerLng radiusKm,
        fa.toPlanningApplication ≠ app) ∧
    ((truthy centerLat = false ∨ truthy centerLng = false) →
      app ∈ applications →
      (⟨app, 0⟩ : FilteredApplication) ∈
        useRadiusFilter hav applications centerLat centerLng radiusKm) ∧
    app ∉ mapMarkers applications := by
  refine ⟨?_, ?_, ?_⟩
  · intro hla hln fa hmem heq
    by_cases hemp : applications.isEmpty
    · rw [List.isEmpty_iff.mp hemp] at hmem
      simp [useRadiusFilter] at hmem
    · have hcond :
          (!truthy centerLat || !truthy centerLng || applications.isEmpty)
            = false := by
        simp [hla, hln, hemp]
      unfold useRadiusFilter at hmem
      rw [hcond] at hmem
      simp only [Bool.false_eq_true, if_false] at hmem
      rw [List.mem_insertionSort] at hmem
      obtain ⟨hmap, hle⟩ := List.mem_filter.mp hmem
      obtain ⟨app2, happ2, hfa⟩ := List.mem_map.mp hmap
      have happeq : app2 = app := by
        rw [← heq, ← hfa, radiusMapStep_toApp]
      subst happeq
      rw [radiusMapStep_missing hav centerLat centerLng app2 happ] at hfa
      rw [← hfa] at hle
      simp at hle
  · intro hcenter hmem
    have hcond :
        (!truthy centerLat || !truthy centerLng || applications.isEmpty)
          = true := by
      rcases hcenter with h | h <;> simp [h]
    unfold useRadiusFilter
    rw [hcond]
    simp only [if_true]
    exact List.mem_map_of_mem _ hmem
  · intro hmem
    have := (List.mem_filter.mp hmem).2
    rcases happ with h | h <;> simp [h] at this

/-- Claim C3 (witness): with no center point available, the record without
coordinates is included with distance 0. -/
theorem useRadiusFilter_unmapped_witness :
    (⟨noCoordApp, 0⟩ : FilteredApplication) ∈
      useRadiusFilter hav0 [noCoordApp] none none 5 :=
  (useRadiusFilter_unmapped_amended hav0 [noCoordApp] none none 5 noCoordApp
    (Or.inl rfl)).2.1 (Or.inl rfl) (List.mem_singleton.mpr rfl)

/-! ## ResultsList status filter (src/src/components/ResultsList.tsx) -/

/-- The `filteredData` memo of `ResultsList`: status filter (skipped for
`'all'`), then the start/end date filters (skipped for empty strings).
JS string comparison on ISO dates is the lexicographic `String` order. -/
def filteredData (radiusFiltered : List FilteredApplication)
    (statusFilter startDate endDate : String) : List FilteredApplication :=
  let r1 :=
    if statusFilter != "all" then
      radiusFiltered.filter (fun a => jsToLower a.status == jsToLower statusFilter)
    else radiusFiltered
  let r2 :=
    if startDate != "" then
      r1.filter (fun a => startDate ≤ a.date_received)
    else r1
  if endDate != "" then
    r2.filter (fun a => a.date_received ≤ endDate)
  else r2

/-- Claim C4: with a status filter other than `all` (and no date filter
active, their initial state), the displayed list holds exactly the
applications whose stored status equals the filter case-insensitively. -/
theorem filteredData_status_filter (xs : List FilteredApplication)
    (statusFilter : String) (h : statusFilter ≠ "all")
    (a : FilteredApplication) :
    a ∈ filteredData xs statusFilter "" "" ↔
      a ∈ xs ∧ jsToLower a.status = jsToLower statusFilter := by
  have h1 : (statusFilter != "all") = true := bne_iff_ne.mpr h
  unfold filteredData
  simp only [h1, if_true, bne_self_eq_false, Bool.false_eq_true, if_false]
  rw [List.mem_filter]
  simp [beq_iff_eq]

/-- A concrete displayed element for the C4 witness. -/
def pendingFa : FilteredApplication :=
  ⟨{ id := "24/0002/FUL", desc := "Loft conversion", addr := "2 High St",
     postcode := "PO1 2AB", lat := some 50, lng := some (-1),
     date_received := "2024-02-01", status := "Pending", link := "l2" }, 0⟩

/-- Claim C4 (witness): the filter `pending` matched against a stored
status `Pending`. -/
theorem filteredData_status_filter_witness :
    pendingFa ∈ filteredData [pendingFa] "pending" "" "" ↔
      pendingFa ∈ [pendingFa] ∧
        jsToLower pendingFa.status = jsToLower "pending" :=
  filteredData_status_filter [pendingFa] "pending" (by decide) pendingFa

/-! ## fetchAllPlanningData (show-all mode, hook document of
src/src/hooks/useRadiusFilter.ts)

`world url = some records` models a successful fetch and parse of the
shard at `url`, `none` models a missing shard (404, network failure or a
thrown parse — all of which the source turns into `[]` for that sector).
`metadataOk` models whether the initial fetch of `data/_metadata.json`
returned an ok response. -/

/-- The fixed list of candidate area prefixes in `fetchAllPlanningData`. -/
def areaPrefixes : List String :=
  ["BD", "DN", "E", "EC", "HA", "LS", "M", "NW", "PO", "SE", "SO", "SW",
   "UB", "W", "WF"]

/-- The candidate sector numbers `'1'` to `'30'` in `fetchAllPlanningData`. -/
def sectorNumbers : List String :=
  ["1", "2", "3", "4", "5", "6", "7", "8", "9", "10", "11", "12", "13",
   "14", "15", "16", "17", "18", "19", "20", "21", "22", "23", "24", "25",
   "26", "27", "28", "29", "30"]

/-- `fetchAllPlanningData`: bail out with `[]` if `data/_metadata.json`
cannot be fetched; otherwise fetch every `data/{area}/{area}{num}.json`,
treat each failed fetch as `[]`, and concatenate area-major. -/
def fetchAllPlanningData (baseUrl : String) (metadataOk : Bool)
    (world : String → Option (List PlanningApplication)) :
    List PlanningApplication :=
  if !metadataOk then []
  else
    (areaPrefixes.map (fun area =>
      ((sectorNumbers.map (fun num =>
        (world (shardPath baseUrl area (area ++ num))).getD [])).flatten))).flatten

/-- Every candidate shard file of the claim: each sector 1–30 of each area
prefix of the fixed list. -/
def candidateShardUrls (baseUrl : String) : List String :=
  (areaPrefixes.map (fun area =>
    sectorNumbers.map (fun num => shardPath baseUrl area (area ++ num)))).flatten

/-- The result claimed by C5: the concatenation over all candidate shard
files of the successfully fetched contents, a missing shard counting as
empty. -/
def claimedShardConcat (baseUrl : String)
    (world : String → Option (List PlanningApplication)) :
    List PlanningApplication :=
  ((candidateShardUrls baseUrl).map (fun u => (world u).getD [])).flatten

/-- A shard record used in the C5 counterexample world. -/
def poOneApp : PlanningApplication :=
  { id := "23/01234/FUL", desc := "Single storey rear extension",
    addr := "123 High St, Portsmouth, PO1 2AB", postcode := "PO1 2AB",
    lat := some 50, lng := some (-1), date_received := "2023-10-25",
    status := "Pending", link := "l3" }

/-- A world in which `data/_metadata.json` is missing but the shard
`data/PO/PO1.json` exists and holds one record. -/
def c5World : String → Option (List PlanningApplication) :=
  fun u => if u = "/data/PO/PO1.json" then some [poOneApp] else none

set_option maxRecDepth 20000 in
/-- Claim C5 (counterexample): when the initial `data/_metadata.json`
fetch fails, show-all returns `[]` without attempting any shard, even
though `data/PO/PO1.json` is present — not the claimed concatenation of
all successfully fetched shards. -/
theorem fetchAllPlanningData_counterexample :
    fetchAllPlanningData "/" false c5World ≠ claimedShardConcat "/" c5World := by
  decide

/-- Claim C5 (amended): provided the initial fetch of
`data/_metadata.json` succeeds, show-all returns the concatenation over
every candidate shard (each sector 1–30 of each prefix of the fixed area
list) of the successfully fetched contents, a missing shard counting as
empty; when the metadata fetch fails it returns `[]` without consuming
any shard. -/
theorem fetchAllPlanningData_amended (baseUrl : String)
    (world : String → Option (List PlanningApplication)) :
    fetchAllPlanningData baseUrl true world = claimedShardConcat baseUrl world ∧
    fetchAllPlanningData baseUrl false world = [] := by
  constructor
  · unfold fetchAllPlanningData claimedShardConcat candidateShardUrls
    simp only [List.map_flatten, List.flatten_flatten, List.map_map]
    rfl
  · rfl

/-! ## ApplicationModal (src/unnamed/part_001)

The modal renders every field of the record; the Location section calls
`application.lat.toFixed(6)` and `application.lng.toFixed(6)`, which in JS
throws a `TypeError` when the coordinate is `null`/`undefined`.  Rendering
is therefore modelled as a fallible function. -/

/-- Did a fallible computation succeed? -/
def exceptOk {ε α : Type} : Except ε α → Bool
  | .ok _ => true
  | .error _ => false

/-- `getStatusColor` from `ApplicationModal`. -/
def getStatusColor (status : String) : String :=
  match jsToLower status with
  | "approved" => "bg-green-100 text-green-800"
  | "refused" => "bg-red-100 text-red-800"
  | "pending" => "bg-yellow-100 text-yellow-800"
  | _ => "bg-gray-100 text-gray-800"

/-- The data the modal displays.  `latFixed`/`lngFixed` carry the values
formatted by `toFixed(6)`; the date line carries the value passed to
`toLocaleDateString` (formatting itself never throws). -/
structure ModalView where
  statusBadge : String
  statusText : String
  title : String
  description : String
  address : String
  postcodeLine : String
  dateLine : String
  latFixed : ℚ
  lngFixed : ℚ
  councilLink : String
deriving DecidableEq

/-- Rendering `ApplicationModal` for a (non-null) application record:
every field is read totally except the two `toFixed(6)` calls, which throw
on an absent coordinate. -/
def renderApplicationModal (application : PlanningApplication) :
    Except String ModalView :=
  match application.lat, application.lng with
  | some la, some ln =>
      .ok { statusBadge := getStatusColor application.status,
            statusText := application.status,
            title := application.id,
            description := application.desc,
            address := application.addr,
            postcodeLine := application.postcode,
            dateLine := application.date_received,
            latFixed := la, lngFixed := ln,
            councilLink := application.link }
  | _, _ => .error "TypeError: toFixed called on an absent coordinate"

/-- Claim C6 (counterexample): the modal fails on the record whose
coordinates are absent — a record the data model permits (`lat`/`lng`
nullable, both absent) — so rendering is not total on the data model. -/
theorem renderApplicationModal_counterexample :
    exceptOk (renderApplicationModal noCoordApp) = false := by
  decide

/-- Claim C6 (amended): rendering the application detail modal succeeds
exactly for the records whose `lat` and `lng` are both present; on a
record with absent coordinates the `toFixed(6)` access fails. -/
theorem renderApplicationModal_ok_iff (application : PlanningApplication) :
    exceptOk (renderApplicationModal application) =
      (application.lat.isSome && application.lng.isSome) := by
  cases hla : application.lat <;> cases hln : application.lng <;>
    simp [renderApplicationModal, exceptOk, hla, hln]

/-! ## Insertion-sort lemmas

General lemmas about `List.orderedInsert`/`List.insertionSort` over a
total, transitive relation, used for the IncrementalStore merge (C7).
The key facts: re-inserting the elements of an already sorted list yields
the same result, and filtering commutes with sorting. -/

section SortLemmas

variable {α : Type} (r : α → α → Prop) [DecidableRel r]

/-- Two insertions at incomparable positions commute when the relation is
total and transitive and the first element does not come before the
second. -/
theorem orderedInsert_comm [IsTotal α r] [IsTrans α r] {a b : α}
    (hab : ¬r a b) (l : List α) :
    (l.orderedInsert r b).orderedInsert r a =
      (l.orderedInsert r a).orderedInsert r b := by
  have hba : r b a := (IsTotal.total a b).resolve_left hab
  induction l with
  | nil => simp [List.orderedInsert, hab, hba]
  | cons c l ih =>
    by_cases hbc : r b c
    · by_cases hac : r a c
      · simp [List.orderedInsert, hab, hba, hbc, hac]
      · simp [List.orderedInsert, hab, hba, hbc, hac]
    · have hac : ¬r a c := fun hac => hbc (IsTrans.trans b a c hba hac)
      simp [List.orderedInsert, hbc, hac, ih]

/-- Folding `orderedInsert` over `orderedInsert r a s` inserts `a` into
the fold over `s`. -/
theorem foldr_orderedInsert_insert [IsTotal α r] [IsTrans α r] (a : α)
    (s acc : List α) :
    (s.orderedInsert r a).foldr (fun x t => t.orderedInsert r x) acc =
      (s.foldr (fun x t => t.orderedInsert r x) acc).orderedInsert r a := by
  induction s with
  | nil => rfl
  | cons b s ih =>
    by_cases hab : r a b
    · simp [List.orderedInsert, hab]
    · rw [show (b :: s).orderedInsert r a = b :: s.orderedInsert r a by
        simp [List.orderedInsert, hab]]
      rw [List.foldr_cons, List.foldr_cons, ih]
      exact (orderedInsert_comm r hab _).symm

/-- Inserting the elements of `l.insertionSort r` one by one is the same
as inserting the elements of `l`: sorting the inputs first does not change
an insertion-sort fold. -/
theorem foldr_orderedInsert_insertionSort [IsTotal α r] [IsTrans α r]
    (l acc : List α) :
    (l.insertionSort r).foldr (fun x t => t.orderedInsert r x) acc =
      l.foldr (fun x t => t.orderedInsert r x) acc := by
  induction l generalizing acc with
  | nil => rfl
  | cons a l ih =>
    rw [List.insertionSort, foldr_orderedInsert_insert, ih, List.foldr_cons]

/-- `insertionSort` over an append folds the left part into the sorted
right part. -/
theorem insertionSort_append (l m : List α) :
    (l ++ m).insertionSort r =
      l.foldr (fun x t => t.orderedInsert r x) (m.insertionSort r) := by
  induction l with
  | nil => rfl
  | cons a l ih => simp [List.insertionSort, ih]

/-- Sorting the left part of an append before sorting the whole append
changes nothing. -/
theorem insertionSort_sorted_append [IsTotal α r] [IsTrans α r]
    (l m : List α) :
    ((l.insertionSort r) ++ m).insertionSort r = (l ++ m).insertionSort r := by
  rw [insertionSort_append, insertionSort_append,
    foldr_orderedInsert_insertionSort]

/-- Inserting an element that comes before every element of the list just
conses it. -/
theorem orderedInsert_eq_cons (a : α) (l : List α) (h : ∀ b ∈ l, r a b) :
    l.orderedInsert r a = a :: l := by
  cases l with
  | nil => rfl
  | cons b l => simp [List.orderedInsert, h b (List.mem_cons_self b l)]

/-- Filtering after inserting into a sorted list is inserting (when kept)
into the filtered list. -/
theorem filter_orderedInsert [IsTotal α r] [IsTrans α r] (p : α → Bool)
    (a : α) (s : List α) (hs : s.Sorted r) :
    (s.orderedInsert r a).filter p =
      if p a then (s.filter p).orderedInsert r a else s.filter p := by
  induction s with
  | nil =>
    by_cases hpa : p a <;> simp [List.orderedInsert, List.filter_cons, hpa]
  | cons c s ih =>
    obtain ⟨hc, hss⟩ := List.sorted_cons.mp hs
    by_cases hac : r a c
    · rw [show (c :: s).orderedInsert r a = a :: c :: s by
        simp [List.orderedInsert, hac]]
      by_cases hpa : p a
      · rw [List.filter_cons, if_pos hpa, if_pos hpa]
        refine (orderedInsert_eq_cons r a _ ?_).symm
        intro b hb
        rcases List.mem_cons.mp (List.mem_of_mem_filter hb) with hb | hb
        · exact hb ▸ hac
        · exact IsTrans.trans a c b hac (hc b hb)
      · rw [List.filter_cons, if_neg hpa, if_neg hpa]
    · rw [show (c :: s).orderedInsert r a = c :: s.orderedInsert r a by
        simp [List.orderedInsert, hac]]
      rw [List.filter_cons, ih hss]
      by_cases hpc : p c <;> by_cases hpa : p a <;>
        simp [hpc, hpa, List.filter_cons, List.orderedInsert, hac]

/-- Filtering commutes with insertion sort. -/
theorem filter_insertionSort [IsTotal α r] [IsTrans α r] (p : α → Bool)
    (l : List α) :
    (l.insertionSort r).filter p = (l.filter p).insertionSort r := by
  induction l with
  | nil => rfl
  | cons a l ih =>
    rw [List.insertionSort,
      filter_orderedInsert r p a _ (List.sorted_insertionSort r l)]
    by_cases hpa : p a
    · rw [if_pos hpa, ih, List.filter_cons, if_pos hpa, List.insertionSort]
    · rw [if_neg hpa, ih, List.filter_cons, if_neg hpa]

end SortLemmas

/-! ## IncrementalStore merge (claim C7)

The Python scraper is not part of src/ (only its design documents are), so
the merge is modelled from the spec, §4.4. -/

/-- Sorting key of a shard: `date_received` descending.  ISO dates compare
chronologically under the lexicographic `String` order. -/
def dateDesc (a b : PlanningApplication) : Prop :=
  b.date_received ≤ a.date_received

instance : DecidableRel dateDesc := fun a b =>
  inferInstanceAs (Decidable (b.date_received ≤ a.date_received))

instance : IsTotal PlanningApplication dateDesc :=
  ⟨fun a b => le_total b.date_received a.date_received⟩

instance : IsTrans PlanningApplication dateDesc :=
  ⟨fun _ _ _ hab hbc => le_trans hbc hab⟩

/-- Does the incoming batch hold a record with this record's `id`? -/
def newBatchHasId (newRecords : List PlanningApplication)
    (x : PlanningApplication) : Bool :=
  newRecords.any (fun y => y.id == x.id)

/-- Modelled from the spec: the per-shard merge of
`IncrementalStore.merge_and_persist` (§4.4) — union by `id` with the new
record winning on collision, then re-sort by `date_received` descending.
The scraper's Python source is not under src/. -/
def mergeRecords (existing newRecords : List PlanningApplication) :
    List PlanningApplication :=
  ((existing.filter (fun x => !newBatchHasId newRecords x)) ++
    newRecords).insertionSort dateDesc

/-- The sector a record's postcode places it in (spec §3: the postcode's
first token). -/
def recordSector (rec : PlanningApplication) : String :=
  specSector rec.postcode

/-- Modelled from the spec: `merge_and_persist` (§4.4) — group the new
records by postcode sector and rewrite each affected shard wholesale with
the merged, re-sorted contents; untouched shards keep their contents.  The
store is the map from sector to shard contents. -/
def mergeAndPersist (store : String → List PlanningApplication)
    (newRecords : List PlanningApplication) :
    String → List PlanningApplication :=
  fun sector =>
    let batch := newRecords.filter (fun rec => recordSector rec == sector)
    if batch.isEmpty then store sector
    else mergeRecords (store sector) batch

/-- Merging the same batch a second time changes nothing. -/
theorem mergeRecords_idem (e b : List PlanningApplication) :
    mergeRecords (mergeRecords e b) b = mergeRecords e b := by
  unfold mergeRecords
  rw [filter_insertionSort, List.filter_append]
  have h1 : (e.filter (fun x => !newBatchHasId b x)).filter
      (fun x => !newBatchHasId b x) = e.filter (fun x => !newBatchHasId b x) := by
    rw [List.filter_filter]
    simp
  have h2 : b.filter (fun x => !newBatchHasId b x) = [] := by
    rw [List.filter_eq_nil_iff]
    intro y hy
    simp [newBatchHasId]
    exact ⟨y, hy, rfl⟩
  rw [h1, h2, List.append_nil]
  exact insertionSort_sorted_append dateDesc _ b

/-- Claim C7: the IncrementalStore merge is idempotent — for every shard
store and every input batch, running `merge_and_persist` twice with the
same batch produces, on every sector, a shard identical to running it
once. -/
theorem mergeAndPersist_idempotent (store : String → List PlanningApplication)
    (newRecords : List PlanningApplication) (sector : String) :
    mergeAndPersist (mergeAndPersist store newRecords) newRecords sector =
      mergeAndPersist store newRecords sector := by
  unfold mergeAndPersist
  by_cases hb :
      (newRecords.filter (fun rec => recordSector rec == sector)).isEmpty
  · simp only [hb, if_true]
  · simp only [hb, Bool.false_eq_true, if_false]
    exact mergeRecords_idem _ _

/-! ## Orchestrator metadata (claim C8)

The orchestrator is part of the Python scraper, which is not under src/;
the per-run metadata lifecycle is modelled from the spec (§3, §4.4, §4.5,
§7): metadata is read once, each council's entry is rewritten only after
its whole batch merged and persisted, and a failed council leaves its
entry untouched. -/

/-- One council's persisted metadata entry (spec §3). -/
structure ScrapeMetadata where
  last_scraped_date : String
  last_run_timestamp : String
  last_status : String
deriving DecidableEq

/-- How a council's run ended: fully merged and persisted with a new
watermark, or failed partway (scrape, merge or persistence error). -/
inductive CouncilOutcome where
  | success (newWatermark runTimestamp : String)
  | failure (message : String)
deriving DecidableEq

/-- Modelled from the spec: the metadata update for one council at the end
of its task — only a fully successful council rewrites its own entry; a
failure leaves the whole metadata map unchanged for that council. -/
def applyOutcome (metadata : String → Option ScrapeMetadata)
    (councilId : String) (outcome : CouncilOutcome) :
    String → Option ScrapeMetadata :=
  match outcome with
  | .failure _ => metadata
  | .success w ts =>
      fun c => if c = councilId then some ⟨w, ts, "success"⟩ else metadata c

/-- Modelled from the spec: a whole run — every enabled council's outcome
is folded into the metadata map. -/
def runAllCouncils (metadata : String → Option ScrapeMetadata)
    (councils : List String) (outcomes : String → CouncilOutcome) :
    String → Option ScrapeMetadata :=
  councils.foldl (fun m c => applyOutcome m c (outcomes c)) metadata

/-- Claim C8: if a council's merge or persistence fails partway through a
run, that council's watermark (`last_scraped_date`) is unchanged after the
run, whatever the other councils did. -/
theorem watermark_unchanged_on_failure
    (metadata : String → Option ScrapeMetadata) (councils : List String)
    (outcomes : String → CouncilOutcome) (c msg : String)
    (hfail : outcomes c = .failure msg) :
    (runAllCouncils metadata councils outcomes c).map
        (fun m => m.last_scraped_date) =
      (metadata c).map (fun m => m.last_scraped_date) := by
  induction councils generalizing metadata with
  | nil => rfl
  | cons d cs ih =>
    show (runAllCouncils (applyOutcome metadata d (outcomes d)) cs outcomes
        c).map (fun m => m.last_scraped_date) = _
    rw [ih (applyOutcome metadata d (outcomes d))]
    have : applyOutcome metadata d (outcomes d) c = metadata c := by
      cases houtd : outcomes d with
      | failure m2 => rfl
      | success w ts =>
        by_cases hdc : c = d
        · subst hdc
          rw [hfail] at houtd
          simp at houtd
        · simp [applyOutcome, hdc]
    rw [this]

/-- A metadata map for the C8 witness. -/
def metadataW : String → Option ScrapeMetadata :=
  fun c => if c = "portsmouth" then some ⟨"2024-01-05", "t0", "success"⟩
           else none

/-- Outcomes for the C8 witness: Portsmouth fails partway, Southampton
completes. -/
def outcomesW : String → CouncilOutcome :=
  fun c => if c = "portsmouth" then .failure "disk write failed"
           else .success "2024-02-01" "t1"

/-- Claim C8 (witness): after a run over two councils in which Portsmouth
fails partway, Portsmouth's watermark is unchanged. -/
theorem watermark_unchanged_on_failure_witness :
    (runAllCouncils metadataW ["portsmouth", "southampton"] outcomesW
        "portsmouth").map (fun m => m.last_scraped_date) =
      (metadataW "portsmouth").map (fun m => m.last_scraped_date) :=
  watermark_unchanged_on_failure metadataW ["portsmouth", "southampton"]
    outcomesW "portsmouth" "disk write failed" (by decide)

/-! ## Cart store (src/src/store/cartStore.ts, claim C9) -/

/-- The operations the store exposes (`isSelected` is a pure read and does
not change the state). -/
inductive CartOp where
  | addLead (lead : PlanningApplication)
  | removeLead (id : String)
  | clearCart
  | toggleLead (lead : PlanningApplication)
  | selectAll (leads : List PlanningApplication)
  | deselectAll
deriving DecidableEq

/-- `addLead`: append unless a lead with the same id is already selected. -/
def addLead (selectedLeads : List PlanningApplication)
    (lead : PlanningApplication) : List PlanningApplication :=
  if selectedLeads.any (fun l => l.id == lead.id) then selectedLeads
  else selectedLeads ++ [lead]

/-- `removeLead`: drop every lead with this id. -/
def removeLead (selectedLeads : List PlanningApplication) (id : String) :
    List PlanningApplication :=
  selectedLeads.filter (fun l => !(l.id == id))

/-- `isSelected`. -/
def isSelected (selectedLeads : List PlanningApplication) (id : String) :
    Bool :=
  selectedLeads.any (fun l => l.id == id)

/-- `toggleLead`. -/
def toggleLead (selectedLeads : List PlanningApplication)
    (lead : PlanningApplication) : List PlanningApplication :=
  if isSelected selectedLeads lead.id then removeLead selectedLeads lead.id
  else addLead selectedLeads lead

/-- `selectAll`: append the given leads whose ids are not yet selected. -/
def selectAll (selectedLeads : List PlanningApplication)
    (leads : List PlanningApplication) : List PlanningApplication :=
  selectedLeads ++
    leads.filter (fun l => !((selectedLeads.map (fun x => x.id)).contains l.id))

/-- One store operation applied to the current `selectedLeads`. -/
def applyCartOp (s : List PlanningApplication) : CartOp → List PlanningApplication
  | .addLead lead => addLead s lead
  | .removeLead i => removeLead s i
  | .clearCart => []
  | .toggleLead lead => toggleLead s lead
  | .selectAll leads => selectAll s leads
  | .deselectAll => []

/-- A sequence of operations run from the empty cart. -/
def runCartOps (ops : List CartOp) : List PlanningApplication :=
  ops.foldl applyCartOp []

/-- The ids of the selected leads. -/
def cartIds (s : List PlanningApplication) : List String :=
  s.map (fun l => l.id)

/-- Claim C9 (counterexample): `selectAll` applied, from the empty cart,
to a list holding the same lead twice puts two entries with the same id
into `selectedLeads` — the filter only checks against already-selected
ids, not within its own input. -/
theorem cartStore_nodup_counterexample :
    ¬ (cartIds (runCartOps [CartOp.selectAll [noCoordApp, noCoordApp]])).Nodup := by
  decide

/-- `addLead` preserves id-uniqueness. -/
theorem cartIds_addLead_nodup (s : List PlanningApplication)
    (lead : PlanningApplication) (h : (cartIds s).Nodup) :
    (cartIds (addLead s lead)).Nodup := by
  unfold addLead
  cases hany : s.any (fun l => l.id == lead.id) with
  | true => simpa [hany] using h
  | false =>
    simp only [hany, Bool.false_eq_true, if_false]
    unfold cartIds
    rw [List.map_append]
    refine List.Nodup.append h (List.nodup_singleton _) ?_
    intro x hx hx2
    rw [List.map_singleton, List.mem_singleton] at hx2
    subst hx2
    obtain ⟨l, hl, hlid⟩ := List.mem_map.mp hx
    have : s.any (fun l => l.id == lead.id) = true :=
      List.any_eq_true.mpr ⟨l, hl, by simp [hlid]⟩
    rw [hany] at this
    exact Bool.false_ne_true this

/-- `removeLead` preserves id-uniqueness. -/
theorem cartIds_removeLead_nodup (s : List PlanningApplication) (i : String)
    (h : (cartIds s).Nodup) : (cartIds (removeLead s i)).Nodup :=
  h.sublist (List.Sublist.map _ (List.filter_sublist s))

/-- `selectAll` preserves id-uniqueness when its input has no duplicate
ids. -/
theorem cartIds_selectAll_nodup (s leads : List PlanningApplication)
    (h : (cartIds s).Nodup) (hl : (cartIds leads).Nodup) :
    (cartIds (selectAll s leads)).Nodup := by
  unfold selectAll cartIds
  rw [List.map_append]
  refine List.Nodup.append h
    (hl.sublist (List.Sublist.map _ (List.filter_sublist leads))) ?_
  intro x hx hx2
  obtain ⟨l, hlmem, hlid⟩ := List.mem_map.mp hx2
  have hcond := (List.mem_filter.mp hlmem).2
  rw [← hlid] at hx
  have h1 : (s.map (fun x => x.id)).contains l.id = true := List.elem_iff.mpr hx
  rw [h1] at hcond
  simp at hcond

/-- Every operation preserves id-uniqueness, provided a `selectAll` input
has no duplicate ids. -/
theorem cartIds_applyCartOp_nodup (s : List PlanningApplication)
    (op : CartOp) (h : (cartIds s).Nodup)
    (hop : ∀ leads, op = CartOp.selectAll leads → (cartIds leads).Nodup) :
    (cartIds (applyCartOp s op)).Nodup := by
  cases op with
  | addLead lead => exact cartIds_addLead_nodup s lead h
  | removeLead i => exact cartIds_removeLead_nodup s i h
  | clearCart => exact List.nodup_nil
  | toggleLead lead =>
    show (cartIds (toggleLead s lead)).Nodup
    unfold toggleLead
    cases ht : isSelected s lead.id with
    | true =>
      simp only [ht, if_true]
      exact cartIds_removeLead_nodup s lead.id h
    | false =>
      simp only [ht, Bool.false_eq_true, if_false]
      exact cartIds_addLead_nodup s lead h
  | selectAll leads => exact cartIds_selectAll_nodup s leads h (hop leads rfl)
  | deselectAll => exact List.nodup_nil

/-- Claim C9 (amended): from the empty cart, every operation sequence
whose `selectAll` inputs have pairwise-distinct ids keeps `selectedLeads`
free of duplicate ids; and `selectAll` appends exactly the given leads
whose ids are not already selected, after the unchanged existing
selection. -/
theorem cartStore_nodup_amended (ops : List CartOp)
    (hops : ∀ leads, CartOp.selectAll leads ∈ ops → (cartIds leads).Nodup) :
    (cartIds (runCartOps ops)).Nodup ∧
    ∀ (s leads : List PlanningApplication),
      selectAll s leads =
        s ++ leads.filter
          (fun l => !((s.map (fun x => x.id)).contains l.id)) := by
  constructor
  · have aux : ∀ (rest : List CartOp) (s : List PlanningApplication),
        (cartIds s).Nodup →
        (∀ leads, CartOp.selectAll leads ∈ rest → (cartIds leads).Nodup) →
        (cartIds (rest.foldl applyCartOp s)).Nodup := by
      intro rest
      induction rest with
      | nil => intro s hs _; exact hs
      | cons op more ih =>
        intro s hs hops2
        rw [List.foldl_cons]
        refine ih (applyCartOp s op)
          (cartIds_applyCartOp_nodup s op hs
            (fun leads heq => hops2 leads (heq ▸ List.mem_cons_self _ _)))
          (fun leads hm => hops2 leads (List.mem_cons_of_mem _ hm))
    exact aux ops [] List.nodup_nil hops
  · intro s leads
    rfl

/-- Claim C9 (witness): the amended theorem at a concrete operation
sequence mixing `addLead`, a duplicate-free `selectAll` and `toggleLead`. -/
theorem cartStore_nodup_amended_witness :
    (cartIds (runCartOps
      [CartOp.addLead noCoordApp,
       CartOp.selectAll [noCoordApp, poOneApp],
       CartOp.toggleLead poOneApp])).Nodup ∧
    ∀ (s leads : List PlanningApplication),
      selectAll s leads =
        s ++ leads.filter
          (fun l => !((s.map (fun x => x.id)).contains l.id)) :=
  cartStore_nodup_amended _ (by
    intro leads h
    simp only [List.mem_cons, List.not_mem_nil, or_false] at h
    rcases h with h | h | h
    · exact CartOp.noConfusion h
    · injection h with h2
      subst h2
      decide
    · exact CartOp.noConfusion h)

/-! ## usePostcodeLookup (src/frontend/src/hooks/usePostcodeLookup.ts) -/

/-- The parsed result of a postcodes.io lookup. -/
structure PostcodeResult where
  postcode : String
  latitude : ℚ
  longitude : ℚ
  region : String
  admin_district : String
deriving DecidableEq

/-- The JSON body of a postcodes.io response: the service's own `status`
field plus an optional `result` object. -/
structure PostcodeBody where
  status : Nat
  result : Option PostcodeResult
deriving DecidableEq

/-- `postcode.trim().toUpperCase().replace(/\s+/g, '')`: trim surrounding
whitespace, uppercase, then delete every whitespace character (the regex
is global). -/
def cleanPostcode (postcode : String) : String :=
  ((((postcode.toList.dropWhile Char.isWhitespace).reverse.dropWhile
      Char.isWhitespace).reverse.map Char.toUpper).filter
    (fun c => !c.isWhitespace)).asString

/-- The lookup URL `https://api.postcodes.io/postcodes/${cleanPostcode}`. -/
def postcodeUrl (postcode : String) : String :=
  "https://api.postcodes.io/postcodes/" ++ cleanPostcode postcode

/-- `fetchPostcodeData` from `usePostcodeLookup.ts`: `null` for inputs
shorter than 3 characters, `null` on a 404, an error on any other non-ok
response, `null` on an ok response whose body has a non-200 status or no
result, and the parsed result otherwise. -/
def fetchPostcodeData (world : String → HttpResponse PostcodeBody)
    (postcode : String) : Except String (Option PostcodeResult) :=
  if postcode == "" || postcode.length < 3 then .ok none
  else
    let response := world (postcodeUrl postcode)
    if !response.ok then
      if response.status = 404 then .ok none
      else .error "Failed to fetch postcode data"
    else
      if response.body.status != 200 || response.body.result.isNone then
        .ok none
      else .ok response.body.result

/-- Claim C10: the postcode lookup returns `null` (never an error) for
inputs shorter than 3 characters, for a 404, and for an ok response with
no result in its body; the queried URL uses the input normalized by
trimming, uppercasing and removing all whitespace (`postcodeUrl`). -/
theorem fetchPostcodeData_null_cases
    (world : String → HttpResponse PostcodeBody) (postcode : String) :
    (postcode.length < 3 → fetchPostcodeData world postcode = .ok none) ∧
    (3 ≤ postcode.length →
      (world (postcodeUrl postcode)).status = 404 →
      fetchPostcodeData world postcode = .ok none) ∧
    (3 ≤ postcode.length →
      (world (postcodeUrl postcode)).ok = true →
      (world (postcodeUrl postcode)).body.result = none →
      fetchPostcodeData world postcode = .ok none) ∧
    (3 ≤ postcode.length →
      (world (postcodeUrl postcode)).ok = true →
      (world (postcodeUrl postcode)).body.status = 200 →
      ∀ res, (world (postcodeUrl postcode)).body.result = some res →
        fetchPostcodeData world postcode = .ok (some res)) := by
  by_cases hshort : postcode.length < 3
  · have hcond : (postcode == "" || decide (postcode.length < 3)) = true := by
      simp [hshort]
    refine ⟨fun _ => ?_, fun h3 => absurd hshort (by omega), fun h3 =>
      absurd hshort (by omega), fun h3 => absurd hshort (by omega)⟩
    unfold fetchPostcodeData
    rw [hcond]
    rfl
  · have hne : postcode ≠ "" := by
      intro he
      rw [he] at hshort
      exact hshort (by decide)
    have hcond : (postcode == "" || decide (postcode.length < 3)) = false := by
      simp [hne, hshort]
    refine ⟨fun h => absurd h hshort, fun _ h404 => ?_, fun _ hok hres => ?_,
      fun _ hok hst res hres => ?_⟩
    · have hok : (world (postcodeUrl postcode)).ok = false := by
        simp [HttpResponse.ok, h404]
      unfold fetchPostcodeData
      rw [hcond]
      simp [hok, h404]
    · unfold fetchPostcodeData
      rw [hcond]
      simp [hok, hres]
    · unfold fetchPostcodeData
      rw [hcond]
      simp [hok, hst, hres]

/-- Claim C10 (witness): a 404 at input `PO1 2AB` yields `null`, and the
too-short input `PO` yields `null`. -/
theorem fetchPostcodeData_null_cases_witness :
    fetchPostcodeData (fun _ => ⟨404, ⟨404, none⟩⟩) "PO1 2AB" = .ok none ∧
    fetchPostcodeData (fun _ => ⟨200, ⟨200, none⟩⟩) "PO" = .ok none :=
  ⟨(fetchPostcodeData_null_cases (fun _ => ⟨404, ⟨404, none⟩⟩)
      "PO1 2AB").2.1 (by decide) rfl,
   (fetchPostcodeData_null_cases (fun _ => ⟨200, ⟨200, none⟩⟩) "PO").1
      (by decide)⟩

end SeracTech
